import Mathlib

/-!
Verification development for the golisp interpreter.

The Go source is shallowly embedded: each Lean definition translates the
corresponding Go function or type.  Go's `float64` numbers are modelled as
`ℚ` (no claim below depends on binary rounding), Go `error` values are
modelled by inductive error types whose constructors carry the data the
corresponding `fmt.Errorf` / struct literal sites carry, and the mutable
`EvalContext` pointer graph is modelled as a store of frames indexed by
their creation order.
-/

namespace GoLisp

/-- ScannerPosition (rune_scanner.go): location information for runes and
tokens.  `Col`/`Row` are Go `int`s. -/
structure Pos where
  sourceFile : String
  col : Int
  row : Int
deriving DecidableEq, Repr, Inhabited

/-- The zero ScannerPosition, produced when a struct is built without
setting `Pos`. -/
def pos0 : Pos := ⟨"", 0, 0⟩

/-- Names of the natively implemented built-in functions that the claims
exercise.  A `FuncValue.Fn` wrapping one of these Go functions is
defunctionalized to this tag. -/
inductive BuiltinName where
  | add
  | sub
  | mult
  | div
  | eqNum
  | gtNum
  | ltNum
  | gteNum
  | lteNum
  | listGet
deriving DecidableEq, Repr

/-- AST nodes (exprs.go / literals.go): IdentLiteral, NumberLiteral,
NilLiteral, StringLiteral, BoolLiteral, FuncLiteral, CallExpr, IfExpr,
FnExpr, LetExpr.  Each carries its `Pos` field.  `LetExpr.Ident` is an
`*IdentLiteral`; we keep its string and its own position. -/
inductive Expr where
  | identLit (v : String) (pos : Pos)
  | numberLit (num : ℚ) (pos : Pos)
  | nilLit (pos : Pos)
  | stringLit (str : String) (pos : Pos)
  | boolLit (b : Bool) (pos : Pos)
  | funcLit (name : String) (fn : BuiltinName) (pos : Pos)
  | call (exprs : List Expr) (pos : Pos)
  | ifE (cond case1 case2 : Expr) (pos : Pos)
  | fnE (args : List String) (body : List Expr) (pos : Pos)
  | letE (ident : String) (identPos : Pos) (value : Expr) (pos : Pos)

/-- The payload of a FuncValue (values.go): either a native built-in
(`FuncLiteral.Fn` / operator functions), or the closure produced by
`FnExpr.Eval`, which captures the argument names, the body, and the
frame that was current at definition time (`parentEc`). -/
inductive FuncObj where
  | builtin (b : BuiltinName)
  | closure (params : List String) (body : List Expr) (defFrame : Nat)

/-- Runtime values (values.go): CellValue, NumberValue, NilValue,
StringValue, BoolValue, FuncValue, ListValue, MapValue.  Go's map is
modelled as an association list. -/
inductive Value where
  | num (v : ℚ)
  | str (s : String)
  | bool (b : Bool)
  | nil
  | cell (left right : Value)
  | list (vals : List Value)
  | mapVal (vals : List (String × Value))
  | func (f : FuncObj)

/-- Rendering of `fmt.Sprintf("%T", v)` for each runtime value kind. -/
def goTypeString : Value → String
  | .num _ => "*golisp2.NumberValue"
  | .str _ => "*golisp2.StringValue"
  | .bool _ => "*golisp2.BoolValue"
  | .nil => "*golisp2.NilValue"
  | .cell _ _ => "*golisp2.CellValue"
  | .list _ => "*golisp2.ListValue"
  | .mapVal _ => "*golisp2.MapValue"
  | .func _ => "*golisp2.FuncValue"

/-- Left-pads a decimal digit string with zeros to 6 characters. -/
def padZeros6 (s : String) : String :=
  String.mk (List.replicate (6 - s.length) '0') ++ s

/-- Rendering of `fmt.Sprintf("%f", v)` for a number modelled as `ℚ`:
sign, integer part, and six rounded decimals.  (Go rounds the underlying
binary double to nearest; on the rationals appearing in this development
the two agree.) -/
def goFmtF6 (q : ℚ) : String :=
  let sign := if q < 0 then "-" else ""
  let n : Nat := (⌊|q| * 1000000 + 1/2⌋).toNat
  sign ++ toString (n / 1000000) ++ "." ++ padZeros6 (toString (n % 1000000))

/-- InspectStr (values.go) for each value kind.  Go iterates a `MapValue`
in map order, which is unspecified; the association-list order stands in
for it (no claim depends on it). -/
def inspectStr : Value → String
  | .num v => goFmtF6 v
  | .str s => "\"" ++ s ++ "\""
  | .bool b => if b then "true" else "false"
  | .nil => "nil"
  | .cell l r => "(" ++ inspectStr l ++ " . " ++ inspectStr r ++ ")"
  | .func _ => "<func>"
  | .list vs =>
      "[" ++ String.intercalate " " (vs.attach.map (fun x => inspectStr x.1)) ++ "]"
  | .mapVal vs =>
      "\x7b" ++
        String.join (vs.attach.map (fun x => " " ++ x.1.1 ++ ":" ++ inspectStr x.1.2)) ++
        " \x7d"
decreasing_by
  all_goals simp_wf
  all_goals first
    | omega
    | (obtain ⟨v, hv⟩ := x
       have := List.sizeOf_lt_of_mem hv; simp at this ⊢; omega)
    | (obtain ⟨⟨k, w⟩, hv⟩ := x
       have := List.sizeOf_lt_of_mem hv
       simp [Prod.mk.sizeOf_spec] at this ⊢; omega)

/-- Errors raised with `fmt.Errorf` inside the ArgMapper and the built-in
functions.  Each constructor corresponds to one `fmt.Errorf` site and
carries the formatted arguments.  `nilDeref` is a model artifact for the
branches Go would only reach by dereferencing a nil out-parameter (they
are unreachable whenever `Complete` returned nil). -/
inductive GoErr where
  | argNotEnough
  | argWrongType (expected got : String)
  | argUnprocessed
  | nonNumberInAdd (inspect : String)
  | listGetOOB
  | nilDeref
deriving DecidableEq, Repr

/-! ### ArgMapper (the second, current version in the source file that also
defines `Complete`).  The mapper owns a value iterator and a recorded
error; the out-parameters written by the `Read*` operations are caller
locals and are returned separately by the `read*V` functions. -/

/-- ArgMapper state over a `valueSet` iterator: the fixed argument
sequence, the iterator index, and the recorded error. -/
structure MState where
  vals : List Value
  idx : Nat
  err : Option GoErr

/-- ArgMapperValues: a fresh mapper over the given values. -/
def initMapper (vals : List Value) : MState := ⟨vals, 0, none⟩

/-- ArgMapper.maybeNext: nothing if an error is already recorded or the
iterator is exhausted; otherwise the next value, consuming one position. -/
def maybeNext (s : MState) : Option Value × MState :=
  if s.err.isSome then (none, s)
  else
    match s.vals[s.idx]? with
    | some v => (some v, { s with idx := s.idx + 1 })
    | none => (none, s)

/-- ArgMapper.next: like maybeNext, but records "not enough arguments"
when no value was produced. -/
def next (s : MState) : Option Value × MState :=
  match maybeNext s with
  | (none, s') => (none, { s' with err := some .argNotEnough })
  | (some v, s') => (some v, s')

/-- The kinds the typed single-read operations (ReadNumber, ReadString,
ReadBool, ReadFunc, ReadCell, ReadList, ReadMap) expect. -/
inductive TKind where
  | number
  | string
  | bool
  | func
  | cell
  | list
  | map
deriving DecidableEq, Repr

/-- The `expected` word in the "ArgMapper: type error" message of each
typed read. -/
def expectedName : TKind → String
  | .number => "number"
  | .string => "string"
  | .bool => "bool"
  | .func => "func"
  | .cell => "cell"
  | .list => "list"
  | .map => "map"

/-- Whether a value matches the type a typed read expects. -/
def matchesKind : TKind → Value → Bool
  | .number, .num _ => true
  | .string, .str _ => true
  | .bool, .bool _ => true
  | .func, .func _ => true
  | .cell, .cell _ _ => true
  | .list, .list _ => true
  | .map, .mapVal _ => true
  | _, _ => false

/-- Rendering of `%T` applied to the interface value the type switch sees:
`<nil>` when `next` produced no value. -/
def goTypeOfOpt : Option Value → String
  | none => "<nil>"
  | some v => goTypeString v

/-- One typed read (the shared shape of ReadNumber/ReadString/...): call
`next`; on a matching value write the out-parameter, otherwise record a
type error (this overwrites any error `next` itself just recorded). -/
def readTypedV (k : TKind) (s : MState) : Option Value × MState :=
  match next s with
  | (some v, s') =>
      if matchesKind k v then (some v, s')
      else (none, { s' with err := some (.argWrongType (expectedName k) (goTypeString v)) })
  | (none, s') =>
      (none, { s' with err := some (.argWrongType (expectedName k) "<nil>") })

/-- ArgMapper.ReadValue: call `next`; write the out-parameter when a value
came back. -/
def readValueV (s : MState) : Option Value × MState := next s

/-- ArgMapper.MaybeReadValue: like ReadValue but via `maybeNext`, so an
exhausted iterator records nothing. -/
def maybeReadValueV (s : MState) : Option Value × MState := maybeNext s

/-- The loop body of the ReadNumbers/ReadStrings/ReadBools "remaining"
reads: drain `maybeNext`; a wrong-typed value records a type error (the
`break` in the Go source only leaves the type switch, so the loop exits on
the following `maybeNext`, which sees the recorded error). -/
def readRemainingAux (expected : String) (k : TKind) : Nat → MState → List Value × MState
  | 0, s => ([], s)
  | fuel + 1, s =>
    match maybeNext s with
    | (none, s') => ([], s')
    | (some v, s') =>
      if matchesKind k v then
        let (rest, s'') := readRemainingAux expected k fuel s'
        (v :: rest, s'')
      else
        let s'' := { s' with err := some (.argWrongType expected (goTypeString v)) }
        readRemainingAux expected k fuel s''

/-- The kinds of "remaining" reads, with the `expected` word each one
formats into its error (ReadStrings and ReadBools both say "number" in
the source). -/
inductive RKind where
  | numbers
  | strings
  | bools
deriving DecidableEq, Repr

/-- The element kind a remaining read collects. -/
def rkKind : RKind → TKind
  | .numbers => .number
  | .strings => .string
  | .bools => .bool

/-- The `expected` word each remaining read formats (copy-pasted as
"number" for all three in the source). -/
def rkExpected : RKind → String
  | .numbers => "number"
  | .strings => "number"
  | .bools => "number"

/-- ReadNumbers / ReadStrings / ReadBools: drain the iterator. -/
def readRemainingV (r : RKind) (s : MState) : List Value × MState :=
  readRemainingAux (rkExpected r) (rkKind r) (s.vals.length + 1) s

/-- ArgMapper.Complete: probe for one more value; when one remains, record
and return "unprocessed arguments remaining", else return the recorded
error. -/
def complete (s : MState) : Option GoErr :=
  match maybeNext s with
  | (some _, _) => some .argUnprocessed
  | (none, s') => s'.err

/-- A single chained ArgMapper read operation. -/
inductive ReadOp where
  | tread (k : TKind)
  | readValue
  | maybeReadValue
  | remaining (r : RKind)
deriving DecidableEq, Repr

/-- The effect of one read operation on the mapper state. -/
def applyOp (op : ReadOp) (s : MState) : MState :=
  match op with
  | .tread k => (readTypedV k s).2
  | .readValue => (readValueV s).2
  | .maybeReadValue => (maybeReadValueV s).2
  | .remaining r => (readRemainingV r s).2

/-- A chain `ArgMapperValues(vals...).Read...().Read...()` of reads. -/
def runChain (ops : List ReadOp) (vals : List Value) : MState :=
  ops.foldl (fun s op => applyOp op s) (initMapper vals)

/-! ### Arithmetic built-ins (builtin_fns.go, current version). -/

/-- The fold inside addFn: `total` accumulates; a non-number argument
fails with "non-number value in add". -/
def addFnAux (total : ℚ) : List Value → Except GoErr Value
  | [] => .ok (.num total)
  | v :: rest =>
    match v with
    | .num x => addFnAux (total + x) rest
    | _ => .error (.nonNumberInAdd (inspectStr v))

/-- addFn: folds `+` over number arguments starting from 0.  No minimum
arity is enforced. -/
def addFn (vals : List Value) : Except GoErr Value := addFnAux 0 vals

/-- The indexed fold inside subFn: the first argument replaces the
accumulator, later ones are subtracted. -/
def subFnAux (i : Nat) (total : ℚ) : List Value → Except GoErr Value
  | [] => .ok (.num total)
  | v :: rest =>
    match v with
    | .num x => subFnAux (i + 1) (if i = 0 then x else total - x) rest
    | _ => .error (.nonNumberInAdd (inspectStr v))

/-- subFn: left fold of subtraction; `total` starts at 0 and no minimum
arity is enforced.  (Its error message also says "in add".) -/
def subFn (vals : List Value) : Except GoErr Value := subFnAux 0 0 vals

/-- The fold inside multFn: `total` starts at 1. -/
def multFnAux (total : ℚ) : List Value → Except GoErr Value
  | [] => .ok (.num total)
  | v :: rest =>
    match v with
    | .num x => multFnAux (total * x) rest
    | _ => .error (.nonNumberInAdd (inspectStr v))

/-- multFn: folds `*` over number arguments starting from 1.  No minimum
arity is enforced. -/
def multFn (vals : List Value) : Except GoErr Value := multFnAux 1 vals

/-- The indexed fold inside divFn: the first argument replaces the
accumulator, later ones divide it.  (Division by zero in `ℚ` yields 0
where Go's float64 yields ±Inf; no claim exercises it.) -/
def divFnAux (i : Nat) (total : ℚ) : List Value → Except GoErr Value
  | [] => .ok (.num total)
  | v :: rest =>
    match v with
    | .num x => divFnAux (i + 1) (if i = 0 then x else total / x) rest
    | _ => .error (.nonNumberInAdd (inspectStr v))

/-- divFn: left fold of division; `total` starts at 1 and no minimum
arity is enforced. -/
def divFn (vals : List Value) : Except GoErr Value := divFnAux 0 1 vals

/-- The shared shape of the numeric comparison built-ins: two ReadNumber
calls and a Complete, then the comparison. -/
def compareNumFn (cmp : ℚ → ℚ → Bool) (vals : List Value) : Except GoErr Value :=
  let (v1, s1) := readTypedV .number (initMapper vals)
  let (v2, s2) := readTypedV .number s1
  match complete s2 with
  | some e => .error e
  | none =>
    match v1, v2 with
    | some (.num a), some (.num b) => .ok (.bool (cmp a b))
    | _, _ => .error .nilDeref

/-- eqNumFn. -/
def eqNumFn : List Value → Except GoErr Value := compareNumFn (fun a b => a == b)

/-- gtNumFn. -/
def gtNumFn : List Value → Except GoErr Value := compareNumFn (fun a b => a > b)

/-- ltNumFn. -/
def ltNumFn : List Value → Except GoErr Value := compareNumFn (fun a b => a < b)

/-- gteNumFn. -/
def gteNumFn : List Value → Except GoErr Value := compareNumFn (fun a b => a ≥ b)

/-- lteNumFn. -/
def lteNumFn : List Value → Except GoErr Value := compareNumFn (fun a b => a ≤ b)

/-- listGetFn: a ReadList, a ReadNumber and a Complete; the index is
`int(math.Floor(v))`; out of bounds fails with "listGet out of bounds". -/
def listGetFn (vals : List Value) : Except GoErr Value :=
  let (lv, s1) := readTypedV .list (initMapper vals)
  let (nv, s2) := readTypedV .number s1
  match complete s2 with
  | some e => .error e
  | none =>
    match lv, nv with
    | some (.list l), some (.num q) =>
      let index : Int := ⌊q⌋
      if h : index < 0 ∨ (l.length : Int) ≤ index then .error .listGetOOB
      else .ok (l.get ⟨index.toNat, by omega⟩)
    | _, _ => .error .nilDeref

/-- Dispatch from a defunctionalized built-in tag to its Go function. -/
def applyBuiltin : BuiltinName → List Value → Except GoErr Value
  | .add => addFn
  | .sub => subFn
  | .mult => multFn
  | .div => divFn
  | .eqNum => eqNumFn
  | .gtNum => gtNumFn
  | .ltNum => ltNumFn
  | .gteNum => gteNumFn
  | .lteNum => lteNumFn
  | .listGet => listGetFn

/-! ### EvalContext (eval_context.go) as a store of frames.

A Go `*EvalContext` is a pointer to a frame holding a `map[string]Value`
and a parent pointer.  The heap of frames is modelled as a list indexed by
creation order; `SubContext` appends a frame whose parent is an earlier
index, so in every store Go can actually build, a frame's parent index is
smaller than its own.  `resolve` relies on that: on a (model-only)
ill-formed store whose parent chain does not descend it stops instead of
looping. -/

/-- One frame: its parent context (none at the root) and its values. -/
structure Frame where
  parent : Option Nat
  vals : List (String × Value)

/-- The heap of frames, indexed by creation order. -/
abbrev Store := List Frame

/-- Go map lookup `ec.vals[ident]`. -/
def lookupVals : List (String × Value) → String → Option Value
  | [], _ => none
  | (k, v) :: rest, ident => if k = ident then some v else lookupVals rest ident

/-- Go map assignment `ec.vals[ident] = val`: replace or append. -/
def setVals : List (String × Value) → String → Value → List (String × Value)
  | [], ident, v => [(ident, v)]
  | (k, w) :: rest, ident, v =>
    if k = ident then (ident, v) :: rest else (k, w) :: setVals rest ident v

/-- EvalContext.Resolve: walk the frame chain from `fid`; a nil context
(index not in the store) reports not-found. -/
def resolve (s : Store) (fid : Nat) (ident : String) : Option Value :=
  match s[fid]? with
  | none => none
  | some fr =>
    match lookupVals fr.vals ident with
    | some v => some v
    | none =>
      match fr.parent with
      | none => none
      | some p => if h : p < fid then resolve s p ident else none
termination_by fid

/-- EvalContext.Add on the frame at `fid` (no-op on a dangling index,
where Go would dereference nil). -/
def storeAdd (s : Store) (fid : Nat) (ident : String) (v : Value) : Store :=
  match s[fid]? with
  | none => s
  | some fr => s.set fid { fr with vals := setVals fr.vals ident v }

/-- EvalContext.SubContext(nil): allocate a fresh empty frame whose
parent is `parent`; returns its index and the grown store. -/
def pushFrame (s : Store) (parent : Nat) : Nat × Store :=
  (s.length, s ++ [⟨some parent, []⟩])

/-- Binding loop of the FnExpr closure: `evalEc.Add(arg.Ident, vals[i])`
for each parameter (called only with equal lengths). -/
def bindArgs (s : Store) (fid : Nat) : List String → List Value → Store
  | a :: as_, v :: vs => bindArgs (storeAdd s fid a v) fid as_ vs
  | _, _ => s

/-! ### The evaluator (exprs.go / literals.go).

`eval` takes a fuel parameter that decreases on every recursive step; it
is an artifact of the embedding (Go recursion can diverge), and every
theorem below holds for every sufficient fuel. -/

/-- Errors produced during evaluation: TypeError and EvalError
(errors.go), the arity `fmt.Errorf` of the FnExpr closure, built-in
errors, and the out-of-fuel artifact of the embedding. -/
inductive EvalErr where
  | typeErr (actual expected : String) (pos : Pos)
  | evalErr (msg : String) (pos : Pos)
  | arity (expected got : Nat)
  | builtin (e : GoErr)
  | outOfFuel
deriving DecidableEq, Repr

/-- SourcePos of each node: its `Pos` field. -/
def exprPos : Expr → Pos
  | .identLit _ p => p
  | .numberLit _ p => p
  | .nilLit p => p
  | .stringLit _ p => p
  | .boolLit _ p => p
  | .funcLit _ _ p => p
  | .call _ p => p
  | .ifE _ _ _ p => p
  | .fnE _ _ p => p
  | .letE _ _ _ p => p

/-- The argument-evaluation loop of CallExpr.Eval: evaluate each
sub-expression left to right, threading the store, collecting values. -/
def evalListWith (ev : Store → Expr → Except EvalErr (Value × Store)) :
    Store → List Expr → Except EvalErr (List Value × Store)
  | s, [] => .ok ([], s)
  | s, e :: es =>
    match ev s e with
    | .error er => .error er
    | .ok (v, s') =>
      match evalListWith ev s' es with
      | .error er => .error er
      | .ok (vs, s'') => .ok (v :: vs, s'')

/-- The body loop of the FnExpr closure: evaluate each body expression in
sequence and keep the last value; an empty body yields Nil. -/
def evalSeqWith (ev : Store → Expr → Except EvalErr (Value × Store)) :
    Store → List Expr → Except EvalErr (Value × Store)
  | s, [] => .ok (.nil, s)
  | s, [e] => ev s e
  | s, e :: es =>
    match ev s e with
    | .error er => .error er
    | .ok (_, s') => evalSeqWith ev s' es

/-- Eval of every node kind, against the frame `f` of store `s`:

* literals (literals.go) yield their value; an identifier resolves and
  yields Nil when unresolved; a FuncLiteral yields its function;
* CallExpr (exprs.go): empty yields Nil; otherwise `evalToFunc` on the
  head — an identifier head is resolved directly, an unresolved one is
  the distinct "undefined identifier ... cannot be used as function"
  EvalError, and a non-function value is a TypeError — then the
  arguments are evaluated left to right and the function applied;
* IfExpr: the condition must evaluate to a Bool, else TypeError; only
  the selected branch is evaluated;
* FnExpr: yields a closure capturing the current frame; applying it
  checks arity, pushes a frame under the captured one, binds parameters,
  and runs the body;
* LetExpr: evaluates the value, adds it to the current frame, yields it. -/
def eval : Nat → Store → Nat → Expr → Except EvalErr (Value × Store)
  | 0, _, _, _ => .error .outOfFuel
  | n + 1, s, f, e =>
    match e with
    | .identLit x _ =>
      match resolve s f x with
      | none => .ok (.nil, s)
      | some v => .ok (v, s)
    | .numberLit q _ => .ok (.num q, s)
    | .nilLit _ => .ok (.nil, s)
    | .stringLit st _ => .ok (.str st, s)
    | .boolLit b _ => .ok (.bool b, s)
    | .funcLit _ fn _ => .ok (.func (.builtin fn), s)
    | .ifE cond case1 case2 _ =>
      match eval n s f cond with
      | .error er => .error er
      | .ok (condV, s1) =>
        match condV with
        | .bool b => if b then eval n s1 f case1 else eval n s1 f case2
        | v => .error (.typeErr (goTypeString v) "*golisp2.BoolValue" (exprPos cond))
    | .fnE args body _ => .ok (.func (.closure args body f), s)
    | .letE ident _ value _ =>
      match eval n s f value with
      | .error er => .error er
      | .ok (v, s1) => .ok (v, storeAdd s1 f ident v)
    | .call exprs _ =>
      match exprs with
      | [] => .ok (.nil, s)
      | head :: rest =>
        let fnRes : Except EvalErr (FuncObj × Store) :=
          match head with
          | .identLit x xp =>
            match resolve s f x with
            | none =>
              .error (.evalErr
                ("undefined identifier '" ++ x ++ "' cannot be used as function") xp)
            | some v =>
              match v with
              | .func fo => .ok (fo, s)
              | v' => .error (.typeErr (goTypeString v') "*golisp2.FuncValue" xp)
          | _ =>
            match eval n s f head with
            | .error er => .error er
            | .ok (v, s1) =>
              match v with
              | .func fo => .ok (fo, s1)
              | v' => .error (.typeErr (goTypeString v') "*golisp2.FuncValue" (exprPos head))
        match fnRes with
        | .error er => .error er
        | .ok (fo, s1) =>
          match evalListWith (fun st ex => eval n st f ex) s1 rest with
          | .error er => .error er
          | .ok (args, s2) =>
            match fo with
            | .builtin b =>
              match applyBuiltin b args with
              | .error ge => .error (.builtin ge)
              | .ok v => .ok (v, s2)
            | .closure params body defFrame =>
              if params.length ≠ args.length then
                .error (.arity params.length args.length)
              else
                let fs := pushFrame s2 defFrame
                evalSeqWith (fun st ex => eval n st fs.1 ex)
                  (bindArgs fs.2 fs.1 params args) body

/-! ### CodeStr (exprs.go / literals.go). -/

/-- CodeStr of every node kind, exactly as each `CodeStr` method builds
it (CallExpr separates with single spaces and ends ")\n"; NumberLiteral
prints with `%f`; FuncLiteral prints its `Name` field). -/
def codeStr : Expr → String
  | .identLit v _ => v
  | .numberLit q _ => goFmtF6 q
  | .nilLit _ => "nil"
  | .stringLit s _ => "\"" ++ s ++ "\""
  | .boolLit b _ => if b then "true" else "false"
  | .funcLit name _ _ => name
  | .call es _ =>
      "(" ++ String.intercalate " " (es.attach.map (fun x => codeStr x.1)) ++ ")\n"
  | .ifE c c1 c2 _ =>
      "(if " ++ codeStr c ++ "\n" ++ codeStr c1 ++ "\n" ++ codeStr c2 ++ ")\n"
  | .fnE args body _ =>
      "(fn (" ++ String.intercalate " " args ++ ")\n" ++
        String.join (body.attach.map (fun x => codeStr x.1)) ++ ")\n"
  | .letE ident _ v _ => "(let " ++ ident ++ " " ++ codeStr v ++ ")"
decreasing_by
  all_goals simp_wf
  all_goals first
    | omega
    | (obtain ⟨v, hv⟩ := x
       have := List.sizeOf_lt_of_mem hv; simp at this ⊢; omega)

/-- NewFuncLiteral (literals.go): takes a name and a function but builds
`&FuncLiteral{Fn: fn}`, leaving `Name` at its zero value. -/
def newFuncLiteral (name : String) (fn : BuiltinName) : Expr :=
  .funcLit "" fn pos0

/-! ### The lexer (the current-generation token scanner, with the rune
scanner of rune_scanner.go underneath).

The rune scanner state holds the current rune (`0` before the first
advance and after exhaustion, exactly like the Go field), the position of
that rune, the runes not yet read, and the terminal error flag (end of
input, or the forbidden null rune).  The `unicode.IsSpace` /
`unicode.IsLetter` / `unicode.IsDigit` classes are modelled on their
ASCII fragment, which covers every character the grammar and the claims
use. -/

/-- TokenType (tokens.go). -/
inductive TokenType where
  | noTT
  | invalid
  | openParen
  | closeParen
  | ident
  | op
  | number
  | string
  | comment
deriving DecidableEq, Repr

/-- ScannedToken (tokens.go). -/
structure Token where
  typ : TokenType
  value : String
  pos : Pos
deriving DecidableEq, Repr

/-- RuneScanner state. -/
structure RuneState where
  r : Char
  pos : Pos
  rest : List Char
  errDone : Bool

/-- RuneScanner.Advance: read the next rune (end of input is a terminal
error and leaves the position untouched), update the position — row
advances when the previous rune was a newline, else the column — and
fail terminally on the forbidden null rune. -/
def runeAdvance (rs : RuneState) : RuneState :=
  if rs.errDone then rs
  else
    match rs.rest with
    | [] => { rs with errDone := true, r := '\x00' }
    | c :: t =>
      let pos :=
        if rs.r = '\n' then { rs.pos with row := rs.pos.row + 1, col := 1 }
        else { rs.pos with col := rs.pos.col + 1 }
      if c = '\x00' then { r := '\x00', pos := pos, rest := t, errDone := true }
      else { r := c, pos := pos, rest := t, errDone := false }

/-- subTokenScanner state: the rune source, the buffer of the token in
progress, and the position of its first rune. -/
structure SState where
  src : RuneState
  buf : List Char
  startPos : Pos

/-- subTokenScanner.Advance: buffer the current rune (remembering its
position when the buffer was empty) and advance the source. -/
def ssAdvance (s : SState) : SState :=
  if s.src.errDone then s
  else
    { src := runeAdvance s.src,
      buf := s.buf ++ [s.src.r],
      startPos := if s.buf.isEmpty then s.src.pos else s.startPos }

/-- subTokenScanner.Skip: advance the source without buffering. -/
def ssSkip (s : SState) : SState :=
  if s.src.errDone then s else { s with src := runeAdvance s.src }

/-- subTokenScanner.Complete: drain the buffer into a token of the given
type. -/
def ssComplete (t : TokenType) (s : SState) : Token × SState :=
  (⟨t, String.mk s.buf, s.startPos⟩, { s with buf := [] })

/-- subTokenScanner.FlushInvalid: buffer the current rune and complete as
invalid. -/
def flushInvalid (s : SState) : Token × SState :=
  ssComplete .invalid (ssAdvance s)

/-- The ASCII fragment of `unicode.IsSpace`. -/
def isSpaceRune (c : Char) : Bool :=
  c = ' ' ∨ c = '\t' ∨ c = '\n' ∨ c = '\x0b' ∨ c = '\x0c' ∨ c = '\r'

/-- isDigitRune (also standing in for `unicode.IsDigit`, which agrees on
ASCII). -/
def isDigitRune (c : Char) : Bool :=
  c = '0' ∨ c = '1' ∨ c = '2' ∨ c = '3' ∨ c = '4' ∨
  c = '5' ∨ c = '6' ∨ c = '7' ∨ c = '8' ∨ c = '9'

/-- isOperatorRune. -/
def isOperatorRune (c : Char) : Bool :=
  c = '-' ∨ c = '+' ∨ c = '/' ∨ c = '*' ∨ c = '&' ∨ c = '^' ∨
  c = '%' ∨ c = '!' ∨ c = '|' ∨ c = '<' ∨ c = '>' ∨ c = '='

/-- The ASCII fragment of `unicode.IsLetter` (isIdentStartRune). -/
def isIdentStartRune (c : Char) : Bool := c.isAlpha

/-- isIdentRune: a letter or a digit. -/
def isIdentRune (c : Char) : Bool := isIdentStartRune c ∨ c.isDigit

/-- scannerAtBoundary: exhausted source, whitespace, or a parenthesis.
(When the source is exhausted the current rune is 0, so the individual
class checks are false exactly as in Go.) -/
def atBoundary (s : SState) : Bool :=
  s.src.errDone ∨ isSpaceRune s.src.r ∨ s.src.r = '(' ∨ s.src.r = ')'

/-- The leading-whitespace loop of scanNextToken: skip nulls and spaces.
The fuel is an upper bound on the runes left and is always sufficient. -/
def skipLeadingAux : Nat → SState → SState
  | 0, s => s
  | n + 1, s =>
    if ¬s.src.errDone ∧ (s.src.r = '\x00' ∨ isSpaceRune s.src.r)
    then skipLeadingAux n (ssSkip s)
    else s

/-- The loop of tryLexComment: consume to the end of the line. -/
def lexCommentAux : Nat → SState → SState
  | 0, s => s
  | n + 1, s =>
    if ¬s.src.errDone ∧ s.src.r ≠ '\n' then lexCommentAux n (ssAdvance s) else s

/-- tryLexComment. -/
def tryLexComment (s : SState) : Token × SState :=
  if s.src.r ≠ ';' then flushInvalid s
  else ssComplete .comment (lexCommentAux (s.src.rest.length + 2) (ssAdvance s))

/-- The loop of tryLexOperatorTail. -/
def lexOpTailAux : Nat → SState → Token × SState
  | 0, s => ssComplete .invalid s
  | n + 1, s =>
    if isOperatorRune s.src.r then lexOpTailAux n (ssAdvance s)
    else if atBoundary s then ssComplete .op s
    else flushInvalid s

/-- tryLexOperatorTail. -/
def tryLexOperatorTail (s : SState) : Token × SState :=
  lexOpTailAux (s.src.rest.length + 2) s

/-- tryLexOperator. -/
def tryLexOperator (s : SState) : Token × SState :=
  if ¬isOperatorRune s.src.r then flushInvalid s
  else tryLexOperatorTail (ssAdvance s)

/-- The loop of tryLexNumber: digits continue; one decimal point is
consumed and must be followed by a digit, else the token completes as
invalid; a boundary completes the number; anything else flushes invalid.
(As the in-source note concedes, the loop tolerates several decimal
points.) -/
def lexNumberAux : Nat → SState → Token × SState
  | 0, s => ssComplete .invalid s
  | n + 1, s =>
    if isDigitRune s.src.r then lexNumberAux n (ssAdvance s)
    else if s.src.r = '.' then
      let s' := ssAdvance s
      if isDigitRune s'.src.r then lexNumberAux n (ssAdvance s')
      else ssComplete .invalid s'
    else if atBoundary s then ssComplete .number s
    else flushInvalid s

/-- tryLexNumber. -/
def tryLexNumber (s : SState) : Token × SState :=
  if ¬isDigitRune s.src.r then flushInvalid s
  else lexNumberAux (s.src.rest.length + 2) (ssAdvance s)

/-- tryLexSignedValue: a `-` followed by a digit lexes as a number, else
as an operator. -/
def tryLexSignedValue (s : SState) : Token × SState :=
  if s.src.r ≠ '-' then flushInvalid s
  else
    let s' := ssAdvance s
    if isDigitRune s'.src.r then tryLexNumber s' else tryLexOperatorTail s'

/-- The loop of tryLexString. -/
def lexStringAux : Nat → SState → Token × SState
  | 0, s => ssComplete .invalid s
  | n + 1, s =>
    if s.src.errDone ∨ s.src.r = '\n' then flushInvalid s
    else if s.src.r = '"' then
      let s' := ssAdvance s
      if atBoundary s' then ssComplete .string s' else flushInvalid s'
    else lexStringAux n (ssAdvance s)

/-- tryLexString. -/
def tryLexString (s : SState) : Token × SState :=
  if s.src.r ≠ '"' then flushInvalid s
  else lexStringAux (s.src.rest.length + 2) (ssAdvance s)

/-- The loop of tryLexIdent. -/
def lexIdentAux : Nat → SState → Token × SState
  | 0, s => ssComplete .invalid s
  | n + 1, s =>
    if atBoundary s then ssComplete .ident s
    else if isIdentRune s.src.r then lexIdentAux n (ssAdvance s)
    else flushInvalid s

/-- tryLexIdent. -/
def tryLexIdent (s : SState) : Token × SState :=
  if ¬isIdentStartRune s.src.r then flushInvalid s
  else lexIdentAux (s.src.rest.length + 2) (ssAdvance s)

/-- scanNextToken: skip leading whitespace (and the initial null rune),
then dispatch on the current rune; produces nothing when the source is
exhausted. -/
def scanNextToken (s : SState) : Option (Token × SState) :=
  let s := skipLeadingAux (s.src.rest.length + 2) s
  if s.src.errDone then none
  else if s.src.r = '(' then some (ssComplete .openParen (ssAdvance s))
  else if s.src.r = ')' then some (ssComplete .closeParen (ssAdvance s))
  else if s.src.r = ';' then some (tryLexComment s)
  else if s.src.r = '-' then some (tryLexSignedValue s)
  else if isOperatorRune s.src.r then some (tryLexOperator s)
  else if isDigitRune s.src.r then some (tryLexNumber s)
  else if s.src.r = '"' then some (tryLexString s)
  else if isIdentStartRune s.src.r then some (tryLexIdent s)
  else some (flushInvalid s)

/-- The token-reading loop (TokenScanner.Advance driven to exhaustion):
comments are skipped, every other token is collected. -/
def tokenizeAux : Nat → SState → List Token
  | 0, _ => []
  | n + 1, s =>
    match scanNextToken s with
    | none => []
    | some (t, s') =>
      if t.typ = .comment then tokenizeAux n s' else t :: tokenizeAux n s'

/-- The initial scanner state over a named source, as NewRuneScanner and
NewTokenScanner build it: current rune 0, row 1, column 0, empty buffer. -/
def initScanState (srcName : String) (src : String) : SState :=
  ⟨⟨'\x00', ⟨srcName, 0, 1⟩, src.data, false⟩, [], pos0⟩

/-- The token stream the scanner produces for a source string. -/
def tokenizeString (srcName : String) (src : String) : List Token :=
  tokenizeAux (src.length + 2) (initScanState srcName src)

/-! ### Parser.

Modelled from the spec: the current-generation parser (tokens to the
`Expr` nodes of exprs.go/literals.go) is not among the provided source
files — only older generations of it are — so it is modelled from the
spec's §4.3/§6 (recursive descent, special forms `if`/`fn`/`let`
recognized by peeking at the leading identifier, everything else a call,
`nil`/`true`/`false` literals, operators mapped to built-in function
literals, errors for malformed forms and unexpected end of input),
following the structure of the older in-repo parsers.  The fuel
decrements on every step and is an embedding artifact. -/

/-- The numeric value of a digit string. -/
def digitsVal (cs : List Char) : Nat :=
  cs.foldl (fun a c => a * 10 + (c.toNat - 48)) 0

/-- Modelled from the spec: number-literal text `-?[0-9]+(\.[0-9]+)?` to
its rational value (standing in for `strconv.ParseFloat`); anything else
is rejected. -/
def strToRat (s : String) : Option ℚ :=
  let cs := s.data
  let signed := cs.head? = some '-'
  let cs := if signed then cs.tail else cs
  let ip := cs.takeWhile (fun c => c ≠ '.')
  let rest := cs.dropWhile (fun c => c ≠ '.')
  if ip.isEmpty ∨ ¬ip.all isDigitRune then none
  else
    let mag : Option ℚ :=
      match rest with
      | [] => some (digitsVal ip : ℚ)
      | '.' :: fp =>
        if fp.isEmpty ∨ ¬fp.all isDigitRune then none
        else some ((digitsVal ip : ℚ) + (digitsVal fp : ℚ) / (10 ^ fp.length : ℚ))
      | _ => none
    mag.map (fun m => if signed then -m else m)

/-- Modelled from the spec: the operator table mapping each recognized
operator token to its built-in. -/
def opBuiltin : String → Option BuiltinName
  | "+" => some .add
  | "-" => some .sub
  | "*" => some .mult
  | "/" => some .div
  | "==" => some .eqNum
  | "<" => some .ltNum
  | ">" => some .gtNum
  | "<=" => some .lteNum
  | ">=" => some .gteNum
  | _ => none

/-- Modelled from the spec: strip the delimiting double quotes from a
string lexeme. -/
def stripQuotes (s : String) : String :=
  let cs := s.data
  let cs := if cs.head? = some '"' then cs.tail else cs
  let cs := if cs.getLast? = some '"' then cs.dropLast else cs
  String.mk cs

/-- Modelled from the spec: consume an expected close paren. -/
def expectClose (ts : List Token) : Except String (List Token) :=
  match ts with
  | t :: rest => if t.typ = .closeParen then .ok rest else .error "expected close paren"
  | [] => .error "unexpected end of input"

/-- Modelled from the spec: the all-identifier parameter list of `fn`,
read to the matching close paren. -/
def parseFnArgs : Nat → List Token → Except String (List String × List Token)
  | 0, _ => .error "out of fuel"
  | _ + 1, [] => .error "file ended in function args"
  | n + 1, t :: rest =>
    match t.typ with
    | .ident =>
      match parseFnArgs n rest with
      | .error e => .error e
      | .ok (args, ts') => .ok (t.value :: args, ts')
    | .closeParen => .ok ([], rest)
    | _ => .error "args can only contain idents"

mutual

/-- Modelled from the spec: parse one expression if one starts here;
produces nothing at end of input or before a close paren. -/
def parseExprAux : Nat → List Token → Except String (Option (Expr × List Token))
  | 0, _ => .error "out of fuel"
  | _ + 1, [] => .ok none
  | n + 1, t :: rest =>
    match t.typ with
    | .closeParen => .ok none
    | .openParen => parseFormAux n t rest
    | .ident =>
      match t.value with
      | "nil" => .ok (some (.nilLit t.pos, rest))
      | "true" => .ok (some (.boolLit true t.pos, rest))
      | "false" => .ok (some (.boolLit false t.pos, rest))
      | v => .ok (some (.identLit v t.pos, rest))
    | .op =>
      match opBuiltin t.value with
      | some b => .ok (some (.funcLit t.value b t.pos, rest))
      | none => .error "unrecognized operator"
    | .number =>
      match strToRat t.value with
      | some q => .ok (some (.numberLit q t.pos, rest))
      | none => .error "could not parse number"
    | .string => .ok (some (.stringLit (stripQuotes t.value) t.pos, rest))
    | .comment => parseExprAux n rest
    | _ => .error "invalid token"

/-- Modelled from the spec: parse expressions until end of input or a
close paren. -/
def parseExprsAux : Nat → List Token → Except String (List Expr × List Token)
  | 0, _ => .error "out of fuel"
  | n + 1, ts =>
    match parseExprAux n ts with
    | .error e => .error e
    | .ok none => .ok ([], ts)
    | .ok (some (e, ts')) =>
      match parseExprsAux n ts' with
      | .error er => .error er
      | .ok (es, ts'') => .ok (e :: es, ts'')

/-- Modelled from the spec: after an open paren, dispatch on a leading
`if`/`fn`/`let` identifier, else parse a call. -/
def parseFormAux (n : Nat) (startTok : Token) (ts : List Token) :
    Except String (Option (Expr × List Token)) :=
  match n with
  | 0 => .error "out of fuel"
  | n + 1 =>
    match ts with
    | t :: _ =>
      if t.typ = .ident ∧ t.value = "if" then parseIfTail n t ts.tail
      else if t.typ = .ident ∧ t.value = "fn" then parseFnTail n t ts.tail
      else if t.typ = .ident ∧ t.value = "let" then parseLetTail n t ts.tail
      else parseCallTail n startTok ts
    | [] => parseCallTail n startTok ts

/-- Modelled from the spec: a generic call — sub-expressions to the
matching close paren. -/
def parseCallTail (n : Nat) (startTok : Token) (ts : List Token) :
    Except String (Option (Expr × List Token)) :=
  match n with
  | 0 => .error "out of fuel"
  | n + 1 =>
    match parseExprsAux n ts with
    | .error e => .error e
    | .ok (es, ts') =>
      match expectClose ts' with
      | .error e => .error e
      | .ok ts'' => .ok (some (.call es startTok.pos, ts''))

/-- Modelled from the spec: `if` takes 1 to 3 sub-expressions; omitted
branches default to nil literals. -/
def parseIfTail (n : Nat) (startTok : Token) (ts : List Token) :
    Except String (Option (Expr × List Token)) :=
  match n with
  | 0 => .error "out of fuel"
  | n + 1 =>
    match parseExprsAux n ts with
    | .error e => .error e
    | .ok (body, ts') =>
      match body with
      | [] => .error "if statement must have condition"
      | cond :: cases =>
        if cases.length > 2 then .error "if statement can have no more than 3 expressions"
        else
          match expectClose ts' with
          | .error e => .error e
          | .ok ts'' =>
            .ok (some (.ifE cond (cases.getD 0 (.nilLit pos0)) (cases.getD 1 (.nilLit pos0))
              startTok.pos, ts''))

/-- Modelled from the spec: `fn` takes a parenthesized identifier list
and body expressions. -/
def parseFnTail (n : Nat) (startTok : Token) (ts : List Token) :
    Except String (Option (Expr × List Token)) :=
  match n with
  | 0 => .error "out of fuel"
  | n + 1 =>
    match ts with
    | t :: rest =>
      if t.typ = .openParen then
        match parseFnArgs n rest with
        | .error e => .error e
        | .ok (args, ts') =>
          match parseExprsAux n ts' with
          | .error e => .error e
          | .ok (body, ts'') =>
            match expectClose ts'' with
            | .error e => .error e
            | .ok ts3 => .ok (some (.fnE args body startTok.pos, ts3))
      else .error "expected open paren"
    | [] => .error "unexpected end of input"

/-- Modelled from the spec: `let` takes exactly an identifier and a value
expression. -/
def parseLetTail (n : Nat) (startTok : Token) (ts : List Token) :
    Except String (Option (Expr × List Token)) :=
  match n with
  | 0 => .error "out of fuel"
  | n + 1 =>
    match parseExprsAux n ts with
    | .error e => .error e
    | .ok (body, ts') =>
      match body with
      | [.identLit x xp, v] =>
        match expectClose ts' with
        | .error e => .error e
        | .ok ts'' => .ok (some (.letE x xp v startTok.pos, ts''))
      | [_, _] => .error "let expects an ident as first argument"
      | _ => .error "let expects 2 arguments"

end

/-- Modelled from the spec: parse a whole token stream to the sequence of
top-level expressions, requiring all input consumed. -/
def parseTokens (ts : List Token) : Except String (List Expr) :=
  match parseExprsAux (2 * ts.length + 8) ts with
  | .error e => .error e
  | .ok (es, leftover) =>
    if leftover.isEmpty then .ok es else .error "parse ended before EOF"

/-- The shadowing scenario `((fn (x) (let x 2) x) 1)` as the parser would
build it (positions are irrelevant to evaluation). -/
def shadowProg : Expr :=
  .call [.fnE ["x"] [.letE "x" pos0 (.numberLit 2 pos0) pos0, .identLit "x" pos0] pos0,
         .numberLit 1 pos0] pos0

/-! ## Theorems -/

/-- `maybeNext` leaves the argument sequence unchanged (only the index
and the recorded error move). -/
theorem maybeNext_vals (s : MState) : (maybeNext s).2.vals = s.vals := by
  simp only [maybeNext]
  split
  · rfl
  · split <;> rfl

/-- `next` leaves the argument sequence unchanged. -/
theorem next_vals (s : MState) : (next s).2.vals = s.vals := by
  have hv := maybeNext_vals s
  simp only [next]
  rcases h : maybeNext s with ⟨v, s'⟩
  rw [h] at hv
  cases v <;> simp_all

/-- The remaining-read loop leaves the argument sequence unchanged. -/
theorem readRemainingAux_vals (expected : String) (k : TKind) :
    ∀ (fuel : Nat) (s : MState), (readRemainingAux expected k fuel s).2.vals = s.vals := by
  intro fuel
  induction fuel with
  | zero => intro s; rfl
  | succ n ih =>
    intro s
    have hv := maybeNext_vals s
    simp only [readRemainingAux]
    rcases h : maybeNext s with ⟨v, s'⟩
    rw [h] at hv
    cases v with
    | none => simpa using hv
    | some w =>
      simp only
      split
      · rw [ih s']; exact hv
      · rw [ih]; exact hv

/-- A single chained read leaves the argument sequence unchanged. -/
theorem applyOp_vals (op : ReadOp) (s : MState) : (applyOp op s).vals = s.vals := by
  cases op with
  | tread k =>
    have hv := next_vals s
    simp only [applyOp, readTypedV]
    rcases h : next s with ⟨v, s'⟩
    rw [h] at hv
    cases v with
    | none => simpa using hv
    | some w =>
      simp only
      split <;> simpa using hv
  | readValue =>
    simp only [applyOp, readValueV]
    exact next_vals s
  | maybeReadValue =>
    simp only [applyOp, maybeReadValueV]
    exact maybeNext_vals s
  | remaining r =>
    simp only [applyOp, readRemainingV]
    exact readRemainingAux_vals _ _ _ s

/-- A whole chain of reads leaves the argument sequence unchanged. -/
theorem runChain_vals (ops : List ReadOp) (vals : List Value) :
    (runChain ops vals).vals = vals := by
  suffices h : ∀ s : MState, (ops.foldl (fun s op => applyOp op s) s).vals = s.vals by
    exact h (initMapper vals)
  induction ops with
  | nil => intro s; rfl
  | cons op rest ih => intro s; simpa [List.foldl, applyOp_vals] using ih (applyOp op s)

/-- Claim C9: evaluating an empty call expression — a CallExpr with zero
sub-expressions, source form `()` — returns Nil with no error, for every
environment. -/
theorem callExpr_empty_evals_to_nil (n : Nat) (s : Store) (f : Nat) (p : Pos) :
    eval (n + 1) s f (.call [] p) = .ok (.nil, s) := rfl

/-- Claim C7: for every environment and every identifier bound in no
frame of that environment, evaluating the identifier as a standalone
expression returns Nil and no error. -/
theorem identLit_unresolved_evals_to_nil (n : Nat) (s : Store) (f : Nat) (x : String)
    (p : Pos) (h : resolve s f x = none) :
    eval (n + 1) s f (.identLit x p) = .ok (.nil, s) := by
  simp [eval, h]

/-- Witness for C7: the empty environment binds nothing, and a standalone
identifier there evaluates to Nil. -/
theorem identLit_unresolved_evals_to_nil_witness :
    eval 1 ([] : Store) 0 (.identLit "y" pos0) = .ok (.nil, []) :=
  identLit_unresolved_evals_to_nil 0 [] 0 "y" pos0 (by simp [resolve])

/-- Claim C3 (code_bug evidence): each arithmetic built-in accepts the
empty argument list and returns its fold identity — 0 for addFn and
subFn, 1 for multFn and divFn — with no error, although the package's own
tests expect `(+)` and `(-)` to fail. -/
theorem arithmetic_empty_args_return_identity :
    addFn [] = .ok (.num 0) ∧ subFn [] = .ok (.num 0) ∧
    multFn [] = .ok (.num 1) ∧ divFn [] = .ok (.num 1) :=
  ⟨rfl, rfl, rfl, rfl⟩

/-- Claim C4 (code_bug evidence): the lexer classifies `1.2.3` — two
decimal points — as a single Number token, while the spec's number
grammar allows at most one decimal point; the trailing-decimal half of
the claim does hold: `12.` lexes as Invalid, not as a number. -/
theorem lexer_number_token_accepts_second_decimal_point :
    tokenizeString "testfile" "1.2.3" = [⟨.number, "1.2.3", ⟨"testfile", 1, 1⟩⟩] ∧
    tokenizeString "testfile" "12." = [⟨.invalid, "12.", ⟨"testfile", 1, 1⟩⟩] :=
  ⟨rfl, rfl⟩

/-- Claim C1 (code_bug evidence): `NewFuncLiteral` drops its name
argument, so the FuncLiteral it builds serializes to the empty string;
lexing that text yields no tokens and re-parsing yields no expressions,
so no re-evaluation can reproduce the function value that evaluating the
node directly returns. -/
theorem newFuncLiteral_roundtrip_loses_node :
    codeStr (newFuncLiteral "concat" .add) = "" ∧
    tokenizeString "testfile" (codeStr (newFuncLiteral "concat" .add)) = [] ∧
    parseTokens [] = .ok [] ∧
    (∀ (n : Nat) (s : Store) (f : Nat),
      eval (n + 1) s f (newFuncLiteral "concat" .add) = .ok (.func (.builtin .add), s)) := by
  have hc : codeStr (newFuncLiteral "concat" .add) = "" := by
    simp [newFuncLiteral, codeStr]
  refine ⟨hc, ?_, rfl, fun n s f => rfl⟩
  rw [hc]
  rfl

/-- Claim C2 (corrected): over a fixed argument sequence, (a) when no
read error is recorded, the finalizing Complete returns an error exactly
when unconsumed arguments remain; (b) Complete returns the recorded
error; and (c) a failing read applied after an error is already recorded
overwrites that error (with the type error rendering the absent value as
`<nil>`), so the error Complete returns is the most recently recorded
one, not the first. -/
theorem argMapper_complete_spec (ops : List ReadOp) (vals : List Value) :
    ((runChain ops vals).err = none →
      (complete (runChain ops vals) = none ↔ vals.length ≤ (runChain ops vals).idx)) ∧
    (∀ e, (runChain ops vals).err = some e → complete (runChain ops vals) = some e) ∧
    (∀ (s : MState) (k : TKind), s.err.isSome = true →
      (applyOp (.tread k) s).err = some (.argWrongType (expectedName k) "<nil>")) := by
  refine ⟨?_, ?_, ?_⟩
  · intro he
    have hv := runChain_vals ops vals
    simp only [complete, maybeNext, he, Option.isSome_none, Bool.false_eq_true, if_false]
    rcases hx : (runChain ops vals).vals[(runChain ops vals).idx]? with _ | v
    · rw [List.getElem?_eq_none_iff, hv] at hx
      simp [he, hx]
    · have hlt : (runChain ops vals).idx < (runChain ops vals).vals.length := by
        by_contra hc
        push_neg at hc
        rw [List.getElem?_eq_none hc] at hx
        exact Option.noConfusion hx
      rw [hv] at hlt
      simp only
      constructor
      · intro hco; exact absurd hco (by simp)
      · intro hle; omega
  · intro e he
    simp [complete, maybeNext, he]
  · intro s k hs
    simp [applyOp, readTypedV, next, maybeNext, hs]

/-- Witness for C2: a chain that consumes its single argument with no
error completes cleanly. -/
theorem argMapper_complete_spec_witness :
    complete (runChain [ReadOp.tread .number] [Value.num 1]) = none := by
  have h := (argMapper_complete_spec [ReadOp.tread .number] [Value.num 1]).1
  exact (h rfl).mpr (by decide)

/-- Counterexample to C2 as stated: on the argument sequence
`["a"]`, the first ReadNumber records the type error naming
*golisp2.StringValue, but after a second ReadNumber the finalizing
Complete returns the later overwriting error (`got <nil>`), not that
first recorded error. -/
theorem argMapper_first_error_counterexample :
    (runChain [ReadOp.tread .number] [Value.str "a"]).err
        = some (.argWrongType "number" "*golisp2.StringValue") ∧
    complete (runChain [ReadOp.tread .number, ReadOp.tread .number] [Value.str "a"])
        = some (.argWrongType "number" "<nil>") ∧
    GoErr.argWrongType "number" "<nil>" ≠ GoErr.argWrongType "number" "*golisp2.StringValue" := by
  exact ⟨rfl, rfl, by decide⟩

/-- Claim C5: IfExpr evaluation evaluates the condition first; a non-Bool
condition is a type error carrying the actual and expected kinds and the
condition's position; a Bool condition selects exactly the matching
branch, and the untaken branch never influences the result (it is not
evaluated). -/
theorem ifExpr_eval_spec (n : Nat) (s : Store) (f : Nat) (cond c1 c2 : Expr) (p : Pos) :
    (∀ s1, eval n s f cond = .ok (.bool true, s1) →
      eval (n + 1) s f (.ifE cond c1 c2 p) = eval n s1 f c1) ∧
    (∀ s1, eval n s f cond = .ok (.bool false, s1) →
      eval (n + 1) s f (.ifE cond c1 c2 p) = eval n s1 f c2) ∧
    (∀ v s1, eval n s f cond = .ok (v, s1) → (∀ b, v ≠ .bool b) →
      eval (n + 1) s f (.ifE cond c1 c2 p) =
        .error (.typeErr (goTypeString v) "*golisp2.BoolValue" (exprPos cond))) ∧
    (∀ er, eval n s f cond = .error er →
      eval (n + 1) s f (.ifE cond c1 c2 p) = .error er) ∧
    (∀ s1 c2', eval n s f cond = .ok (.bool true, s1) →
      eval (n + 1) s f (.ifE cond c1 c2 p) = eval (n + 1) s f (.ifE cond c1 c2' p)) := by
  refine ⟨?_, ?_, ?_, ?_, ?_⟩
  · intro s1 h; simp [eval, h]
  · intro s1 h; simp [eval, h]
  · intro v s1 h hv
    simp only [eval]
    rw [h]
    cases v <;> simp_all
  · intro er h; simp [eval, h]
  · intro s1 c2' h; simp [eval, h]

/-- Witness for C5: a true condition selects the then-branch. -/
theorem ifExpr_eval_spec_witness :
    eval 2 ([] : Store) 0 (.ifE (.boolLit true pos0) (.numberLit 1 pos0) (.numberLit 2 pos0) pos0)
      = eval 1 ([] : Store) 0 (.numberLit 1 pos0) :=
  (ifExpr_eval_spec 1 [] 0 (.boolLit true pos0) (.numberLit 1 pos0) (.numberLit 2 pos0)
    pos0).1 [] rfl

/-- Claim C6: a CallExpr whose callee evaluates to a non-Function fails
with a type error naming the expected and actual kinds — except that an
identifier callee that is unresolved in the environment fails with the
distinct "undefined identifier ... cannot be used as function"
evaluation error instead. -/
theorem callExpr_non_function_callee_spec (n : Nat) (s : Store) (f : Nat)
    (head : Expr) (rest : List Expr) (p : Pos) :
    (∀ x xp, head = .identLit x xp → resolve s f x = none →
      eval (n + 1) s f (.call (head :: rest) p) =
        .error (.evalErr ("undefined identifier '" ++ x ++ "' cannot be used as function") xp)) ∧
    (∀ x xp v, head = .identLit x xp → resolve s f x = some v → (∀ fo, v ≠ .func fo) →
      eval (n + 1) s f (.call (head :: rest) p) =
        .error (.typeErr (goTypeString v) "*golisp2.FuncValue" xp)) ∧
    (∀ v s1, (∀ x xp, head ≠ .identLit x xp) → eval n s f head = .ok (v, s1) →
      (∀ fo, v ≠ .func fo) →
      eval (n + 1) s f (.call (head :: rest) p) =
        .error (.typeErr (goTypeString v) "*golisp2.FuncValue" (exprPos head))) := by
  refine ⟨?_, ?_, ?_⟩
  · intro x xp hh hr; subst hh; simp [eval, hr]
  · intro x xp v hh hr hv
    subst hh
    simp only [eval]
    rw [hr]
    cases v <;> simp_all
  · intro v s1 hni hh hv
    cases head
    case identLit a b => exact absurd rfl (hni a b)
    all_goals (simp only [eval]; rw [hh]; cases v <;> simp_all)

/-- Witness for C6: calling an identifier that resolves nowhere yields
the distinct undefined-identifier evaluation error. -/
theorem callExpr_non_function_callee_spec_witness :
    eval 1 ([] : Store) 0 (.call [.identLit "g" pos0] pos0) =
      .error (.evalErr "undefined identifier 'g' cannot be used as function" pos0) := by
  have h := (callExpr_non_function_callee_spec 0 [] 0 (.identLit "g" pos0) [] pos0).1
  exact h "g" pos0 rfl (by simp [resolve])

/-- Claim C10: listGetFn returns the element at index `floor(n)` exactly
when that index is within bounds, and fails with the out-of-bounds error
— never an unchecked access — when it is negative or beyond the list. -/
theorem listGetFn_bounds_spec (l : List Value) (q : ℚ) :
    (∀ (h1 : 0 ≤ ⌊q⌋) (h2 : ⌊q⌋ < (l.length : Int)),
      listGetFn [.list l, .num q] = .ok (l.get ⟨(⌊q⌋).toNat, by omega⟩)) ∧
    (⌊q⌋ < 0 ∨ (l.length : Int) ≤ ⌊q⌋ → listGetFn [.list l, .num q] = .error .listGetOOB) := by
  have hred : listGetFn [.list l, .num q] =
      if h : ⌊q⌋ < 0 ∨ (l.length : Int) ≤ ⌊q⌋ then .error .listGetOOB
      else .ok (l.get ⟨(⌊q⌋).toNat, by omega⟩) := rfl
  constructor
  · intro h1 h2
    rw [hred, dif_neg (by omega)]
  · intro h
    rw [hred, dif_pos h]

/-- Witness for C10: index 1 of a two-element list is its second element. -/
theorem listGetFn_bounds_spec_witness :
    listGetFn [.list [.num 5, .str "a"], .num 1] = .ok (.str "a") := by
  have h := (listGetFn_bounds_spec [.num 5, .str "a"] 1).1 (by simp) (by simp)
  simpa using h

/-- Resolution only inspects frames at indices at most the starting one,
so replacing a store by one that agrees on the first `s.length` frames
preserves resolution from any frame index below `s.length`. -/
theorem resolve_congr (s t : Store) (hpre : ∀ i, i < s.length → t[i]? = s[i]?) :
    ∀ fid, fid < s.length → ∀ ident, resolve t fid ident = resolve s fid ident := by
  intro fid
  induction fid using Nat.strong_induction_on with
  | _ fid ih =>
    intro hfid ident
    unfold resolve
    rw [hpre fid hfid]
    cases hsf : s[fid]? with
    | none => rfl
    | some fr =>
      simp only
      cases hlv : lookupVals fr.vals ident with
      | some v => simp [hlv]
      | none =>
        simp only [hlv]
        cases hp : fr.parent with
        | none => rfl
        | some p =>
          simp only
          by_cases hpf : p < fid
          · simp only [dif_pos hpf]
            exact ih p hpf (lt_trans hpf hfid) ident
          · simp [dif_neg hpf]

/-- Claim C8: `((fn (x) (let x 2) x) 1)` evaluates to the number 2 in any
environment whose current frame is valid; the `let` mutates only the
invocation frame (appended and then discarded), so every frame of the
calling environment is unchanged and resolution from the calling frame is
untouched. -/
theorem shadowing_confined_to_invocation_frame (n : Nat) (s : Store) (f : Nat)
    (hf : f < s.length) :
    eval (n + 3) s f shadowProg =
      .ok (.num 2, s ++ [Frame.mk (some f) [("x", Value.num 2)]]) ∧
    (∀ i, i < s.length →
      (s ++ [Frame.mk (some f) [("x", Value.num 2)]])[i]? = s[i]?) ∧
    (∀ ident,
      resolve (s ++ [Frame.mk (some f) [("x", Value.num 2)]]) f ident = resolve s f ident) := by
  have hframes : ∀ i, i < s.length →
      (s ++ [Frame.mk (some f) [("x", Value.num 2)]])[i]? = s[i]? := by
    intro i hi
    rw [List.getElem?_append_left hi]
  refine ⟨?_, hframes, fun ident => resolve_congr s _ hframes f hf ident⟩
  have hget1 : (s ++ [Frame.mk (some f) []])[s.length]? = some (Frame.mk (some f) []) := by
    rw [List.getElem?_append_right (le_refl _)]
    simp
  have hget2 : ((s ++ [Frame.mk (some f) []]).set s.length
      (Frame.mk (some f) [("x", Value.num 1)]))[s.length]? =
      some (Frame.mk (some f) [("x", Value.num 1)]) := by
    rw [List.getElem?_set_self (by simp)]
  have hres : resolve (s ++ [Frame.mk (some f) [("x", Value.num 2)]]) s.length "x"
      = some (.num 2) := by
    unfold resolve
    rw [List.getElem?_append_right (le_refl _)]
    simp [lookupVals]
  simp [shadowProg, eval, evalListWith, evalSeqWith, pushFrame, bindArgs, storeAdd,
    setVals, hget1, hget2, hres]

/-- Witness for C8: the shadowing program in a one-frame environment. -/
theorem shadowing_confined_to_invocation_frame_witness :
    eval 3 ([Frame.mk none []] : Store) 0 shadowProg =
      .ok (.num 2, [Frame.mk none [], Frame.mk (some 0) [("x", Value.num 2)]]) := by
  have h := (shadowing_confined_to_invocation_frame 0 [Frame.mk none []] 0 (by simp)).1
  simpa using h

end GoLisp
